import Mathlib

/-!
Verification development for an on-chain prediction-market indexer.

The Python sources are shallowly embedded here:
* Python `str` values are modelled as `List Char` (`Str` below); string
  literals enter through `strL`.
* Python `bytes` values are modelled as `List Nat`, each element a byte value.
* Python `Decimal` arithmetic is modelled over `ℚ`; the only divisions the
  code performs are exactly representable at the points the claims inspect,
  and the `.6f` rendering is modelled with round-half-even, which is the
  `Decimal` default rounding mode.
* `sqlite3` state is modelled as an explicit record of tables; a connection
  carries a durable snapshot and a pending (in-transaction) snapshot, and
  `commit` copies pending over durable.
* `web3` I/O (log fetch, block timestamps) enters as explicit parameters.
* keccak-256 is an external primitive; every statement about it is
  parametrised over an arbitrary digest function, since the claims concern
  the bytes fed to the hash, not the hash itself.
* `Web3.to_checksum_address` is modelled as validation plus lowercasing:
  EIP-55 re-capitalisation is omitted because every comparison the code
  performs on addresses lowercases both sides first, so the mixed casing is
  never observable in the properties below.
-/

namespace OGBC

/-- Python `str`, modelled as a list of characters. -/
abbrev Str := List Char

/-- Turn a Lean string literal into the `List Char` model of a Python string. -/
def strL (s : String) : Str := s.data

/-- ASCII lowercase of one character, the fragment of Python `str.lower`
exercised by the sources (all inputs are ASCII hex strings/addresses). -/
def lowerChar (c : Char) : Char :=
  if 65 ≤ c.toNat ∧ c.toNat ≤ 90 then Char.ofNat (c.toNat + 32) else c

/-- Python `str.lower`. -/
def lowerL (s : Str) : Str := s.map lowerChar

/-- Python `str.zfill`: left-pad with the character `'0'` to width `w`
(the inputs here are hex digit strings, never signed). -/
def zfillL (s : Str) (w : Nat) : Str :=
  List.replicate (w - s.length) '0' ++ s

/-- Python `s.rstrip(c)` for a single strip character. -/
def rstripChar (s : Str) (c : Char) : Str :=
  ((s.reverse).dropWhile (fun d => d == c)).reverse

/-- Does the string start with the two characters `0x`?
(Python `str.startswith("0x")`.) -/
def starts0x : Str → Bool
  | a :: b :: _ => a == '0' && b == 'x'
  | _ => false

/-- The common prelude of the derivation functions:
`if not s.startswith('0x'): s = '0x' + s`. -/
def ensure0x (s : Str) : Str :=
  if starts0x s then s else strL "0x" ++ s

/-- Is the character an ASCII decimal digit (Python `str.isdigit` per char)? -/
def isDigitChar (c : Char) : Bool :=
  48 ≤ c.toNat && c.toNat ≤ 57

/-- Python `str.isdigit`: nonempty and all decimal digits. -/
def isDigits (s : Str) : Bool :=
  !s.isEmpty && s.all isDigitChar

/-- Python `int(s)` on a digit string. -/
def decToNat (s : Str) : Nat :=
  s.foldl (fun a c => a * 10 + (c.toNat - 48)) 0

/-- Is the character an ASCII hex digit? -/
def isHexChar (c : Char) : Bool :=
  (48 ≤ c.toNat && c.toNat ≤ 57) ||
  (97 ≤ c.toNat && c.toNat ≤ 102) ||
  (65 ≤ c.toNat && c.toNat ≤ 70)

/-- Value of one hex digit, `none` on a non-hex character
(`bytes.fromhex` raises `ValueError` there). -/
def hexVal? (c : Char) : Option Nat :=
  if 48 ≤ c.toNat ∧ c.toNat ≤ 57 then some (c.toNat - 48)
  else if 97 ≤ c.toNat ∧ c.toNat ≤ 102 then some (c.toNat - 87)
  else if 65 ≤ c.toNat ∧ c.toNat ≤ 70 then some (c.toNat - 55)
  else none

/-- Python `bytes.fromhex`: consume hex digits two at a time; fails on a
non-hex character or an odd-length string. -/
def hexPairsToBytes : Str → Option (List Nat)
  | [] => some []
  | [_] => none
  | c1 :: c2 :: rest => do
    let h1 ← hexVal? c1
    let h2 ← hexVal? c2
    let bs ← hexPairsToBytes rest
    return (h1 * 16 + h2) :: bs

/-- Python `bytes.hex()`: two lowercase hex digits per byte, no prefix. -/
def bytesToHex (bs : List Nat) : Str :=
  (bs.map (fun b => [Nat.digitChar (b / 16 % 16), Nat.digitChar (b % 16)])).flatten

/-- Python `int.from_bytes(bs, 'big')`. -/
def bytesToNat (bs : List Nat) : Nat :=
  bs.foldl (fun a b => a * 256 + b) 0

/-- Python `n.to_bytes(w, 'big')`, assuming `n < 256 ^ w`
(the caller of this model guards the overflow case explicitly). -/
def natToBytes : Nat → Nat → List Nat
  | 0, _ => []
  | w + 1, n => natToBytes w (n / 256) ++ [n % 256]

/-- Python `f"{n:0{w}x}"`: lowercase hex, left-zero-padded to width `w`
(longer values keep their full width, exactly as in Python). -/
def hexPad (n w : Nat) : Str :=
  zfillL (Nat.toDigits 16 n) w

/-- Python `s[-n:]`: the last `n` characters (the whole string when shorter). -/
def takeLast (s : Str) (n : Nat) : Str :=
  s.drop (s.length - n)

/-- Round-half-even (banker's rounding) of the ratio `a / b` for `b > 0`;
this is the default `decimal` rounding mode applied by `f"{d:.6f}"`. -/
def roundHalfEven (a b : Int) : Int :=
  let q := Int.fdiv a b
  let r := Int.fmod a b
  if 2 * r < b then q
  else if b < 2 * r then q + 1
  else if q % 2 = 0 then q else q + 1

/-- Model of `f"{price:.6f}".rstrip('0').rstrip('.')` applied to a
nonnegative exact `Decimal` value: render with six decimal places under
round-half-even, then trim trailing zeros and a trailing dot. -/
def fmt6 (q : ℚ) : Str :=
  let n : Int := roundHalfEven (q.num * 1000000) (q.den : Int)
  let m : Nat := n.toNat
  rstripChar (rstripChar
    (Nat.toDigits 10 (m / 1000000) ++ ['.'] ++ zfillL (Nat.toDigits 10 (m % 1000000)) 6)
    '0') '.'

/-- Model of `str(Decimal(a) / Decimal(10 ** 6))` for a natural `a`: the
division is exact with at most six fractional digits, and `Decimal` prints
the exact quotient at its ideal exponent (no trailing zeros, no forced
decimal point on integers). -/
def decDivStr6 (a : Nat) : Str :=
  if a % 1000000 == 0 then Nat.toDigits 10 (a / 1000000)
  else Nat.toDigits 10 (a / 1000000) ++ ['.'] ++
    rstripChar (zfillL (Nat.toDigits 10 (a % 1000000)) 6) '0'

/-- `Web3.to_checksum_address`: validates a (possibly `0x`-prefixed)
40-hex-digit address and returns its canonical form; the EIP-55 mixed
casing is modelled as lowercase, see the file header. Returns `none` where
the Python raises. -/
def to_checksum_address (s : Str) : Option Str :=
  let body := if starts0x s then s.drop 2 else s
  if body.length = 40 ∧ body.all isHexChar then
    some (strL "0x" ++ lowerL body)
  else none

/-! ## Trade-fill decoder (`src/stage2/src/ctf/trade_decoder.py`) -/

/-- Polymarket binary-market exchange contract address
(`trade_decoder.CTF_EXCHANGE`). -/
def CTF_EXCHANGE : Str := strL "0x4bFb41d5B3570DeFd03C39a9A4D8dE6Bd8B8982E"

/-- Polymarket negative-risk exchange contract address
(`trade_decoder.NEGRISK_CTF_EXCHANGE`). -/
def NEGRISK_CTF_EXCHANGE : Str := strL "0xC5d563A36AE78145C45a50134d48A1215220f80a"

/-- A raw event log as delivered by `w3.eth.get_logs` /
`get_transaction_receipt`: topics and data are byte blobs
(the `HexBytes` representation web3 returns). -/
structure Log where
  address : Str
  topics : List (List Nat)
  data : List Nat
  transactionHash : List Nat
  logIndex : Nat
  blockNumber : Nat
  deriving Repr, DecidableEq

/-- The `Trade` dataclass of `trade_decoder.py`: every numeric field is
stringified exactly as in the Python (`str(int)` decimal, price formatted,
token id as `0x` + 64 hex digits). -/
structure Trade where
  tx_hash : Str
  log_index : Nat
  exchange : Str
  order_hash : Str
  maker : Str
  taker : Str
  maker_asset_id : Str
  taker_asset_id : Str
  maker_amount : Str
  taker_amount : Str
  fee : Str
  price : Str
  token_id : Str
  side : Str
  deriving Repr, DecidableEq

/-- The ways `decode_order_filled` can raise: an `IndexError` on a topics
list with fewer than four entries, or a `ValueError` from
`Web3.to_checksum_address` on a malformed address. -/
inductive DecodeErr where
  | tooFewTopics
  | badAddress
  deriving Repr, DecidableEq

/-- `decode_order_filled` of `stage2/src/ctf/trade_decoder.py`, decomposed:
extract the five 32-byte big-endian data words at offsets 0,32,64,96,128. -/
def dataWord (data : List Nat) (off : Nat) : Nat :=
  bytesToNat ((data.drop off).take 32)

/-- The side / token / price branch of `decode_order_filled`
(also duplicated verbatim in stage1's `parse_order_filled_log`):
`maker_asset_id == 0` means the maker spends collateral (BUY), otherwise
the maker surrenders a position (SELL). Returns (side, token_id, price). -/
def sideTokenPrice (maker_asset_id taker_asset_id maker_amount_filled
    taker_amount_filled : Nat) : Str × Str × ℚ :=
  if maker_asset_id = 0 then
    (strL "BUY", strL "0x" ++ hexPad taker_asset_id 64,
      if 0 < taker_amount_filled then
        (maker_amount_filled : ℚ) / (taker_amount_filled : ℚ)
      else 0)
  else
    (strL "SELL", strL "0x" ++ hexPad maker_asset_id 64,
      if 0 < maker_amount_filled then
        (taker_amount_filled : ℚ) / (maker_amount_filled : ℚ)
      else 0)

/-- Shared body of stage2 `decode_order_filled` and stage1
`parse_order_filled_log` (the Python duplicates this code verbatim between
the two stages): topics 1–3 give order hash, maker, taker; the data blob
gives the five uint256 fields; side, token id and price follow the
`maker_asset_id == 0` rule; the price string is the `.6f` rendering with
trailing zeros trimmed. -/
def orderFilledFields (log : Log) (exchange : Str) : Except DecodeErr Trade :=
  match log.topics with
  | _ :: t1 :: t2 :: t3 :: _ =>
    let order_hash := bytesToHex t1
    match to_checksum_address (strL "0x" ++ takeLast (bytesToHex t2) 40),
          to_checksum_address (strL "0x" ++ takeLast (bytesToHex t3) 40) with
    | some maker, some taker =>
      let maker_asset_id := dataWord log.data 0
      let taker_asset_id := dataWord log.data 32
      let maker_amount_filled := dataWord log.data 64
      let taker_amount_filled := dataWord log.data 96
      let fee := dataWord log.data 128
      let stp := sideTokenPrice maker_asset_id taker_asset_id
        maker_amount_filled taker_amount_filled
      .ok {
        tx_hash := bytesToHex log.transactionHash
        log_index := log.logIndex
        exchange := exchange
        order_hash := order_hash
        maker := maker
        taker := taker
        maker_asset_id := Nat.toDigits 10 maker_asset_id
        taker_asset_id := Nat.toDigits 10 taker_asset_id
        maker_amount := Nat.toDigits 10 maker_amount_filled
        taker_amount := Nat.toDigits 10 taker_amount_filled
        fee := Nat.toDigits 10 fee
        price := fmt6 stp.2.2
        token_id := stp.2.1
        side := stp.1 }
    | _, _ => .error .badAddress
  | _ => .error .tooFewTopics

/-- `decode_order_filled` (stage2): resolve the emitting exchange from the
log address (falling back to the checksummed address itself), then decode
the fields. A malformed log raises, which the model surfaces as `.error`. -/
def decode_order_filled (log : Log) : Except DecodeErr Trade :=
  match to_checksum_address log.address with
  | none => .error .badAddress
  | some chk =>
    let exchange :=
      if chk == (to_checksum_address CTF_EXCHANGE).getD [] then CTF_EXCHANGE
      else if chk == (to_checksum_address NEGRISK_CTF_EXCHANGE).getD [] then
        NEGRISK_CTF_EXCHANGE
      else chk
    orderFilledFields log exchange

/-! ## ID derivation engine (`src/stage2/src/ctf/derive.py`)

Every definition is parametrised over the keccak-256 digest function,
an external primitive: the properties proved below concern the exact byte
string passed to it. -/

/-- `get_collection_id`: normalise the two hex inputs, left-zero-fill to 64
hex digits, convert to bytes, append the index set as a 32-byte big-endian
integer, and hash the packed 96-byte concatenation. `none` models the
`ValueError` of `bytes.fromhex` on a non-hex input and the `OverflowError`
of `int.to_bytes` on an index set that does not fit 32 bytes. -/
def get_collection_id (keccak : List Nat → List Nat)
    (parent_collection_id condition_id : Str) (index_set : Nat) :
    Option Str := do
  let p := ensure0x parent_collection_id
  let c := ensure0x condition_id
  let parent_bytes ← hexPairsToBytes (zfillL (p.drop 2) 64)
  let condition_bytes ← hexPairsToBytes (zfillL (c.drop 2) 64)
  if index_set < 2 ^ 256 then
    let packed := parent_bytes ++ condition_bytes ++ natToBytes 32 index_set
    return strL "0x" ++ bytesToHex (keccak packed)
  else none

/-- `get_position_id`: normalise, left-zero-fill the address to 40 hex
digits and the collection id to 64, and hash the packed 52-byte
concatenation. -/
def get_position_id (keccak : List Nat → List Nat)
    (collateral_token collection_id : Str) : Option Str := do
  let t := ensure0x collateral_token
  let c := ensure0x collection_id
  let token_bytes ← hexPairsToBytes (zfillL (t.drop 2) 40)
  let collection_bytes ← hexPairsToBytes (zfillL (c.drop 2) 64)
  let packed := token_bytes ++ collection_bytes
  return strL "0x" ++ bytesToHex (keccak packed)

/-- The spec's words for the collection id (spec §4.1): keccak-256 of the
raw packed concatenation of the 32-byte parent, the 32-byte condition id,
and the index set as a 32-byte big-endian integer — no ABI head/tail
encoding. Stated over byte arrays to be compared with the string-level
source function. -/
def collectionId_spec (keccak : List Nat → List Nat)
    (parentBytes conditionBytes : List Nat) (indexSet : Nat) : List Nat :=
  keccak (parentBytes ++ conditionBytes ++ natToBytes 32 indexSet)

/-- The spec's words for the position id (spec §4.1): keccak-256 of the
packed concatenation of the 20-byte address and the 32-byte collection id,
52 bytes total, neither input padded to 32 bytes. -/
def positionId_spec (keccak : List Nat → List Nat)
    (addressBytes collectionBytes : List Nat) : List Nat :=
  keccak (addressBytes ++ collectionBytes)

/-- The byte decoding of a hex string at canonical 32-byte width, as
`get_collection_id` performs it (total within the well-formedness
hypotheses of the theorems below). -/
def bytes32Of (h : Str) : List Nat :=
  (hexPairsToBytes (zfillL h 64)).getD []

/-- The byte decoding of a hex address at canonical 20-byte width. -/
def bytes20Of (h : Str) : List Nat :=
  (hexPairsToBytes (zfillL h 40)).getD []

/-- `normalize_hex` of `derive.py`: lowercase and ensure a `0x` prefix;
empty strings pass through. (Note: it does not zero-pad.) -/
def normalize_hex (value : Str) : Str :=
  if value.isEmpty then value
  else if starts0x value then strL "0x" ++ lowerL (value.drop 2)
  else strL "0x" ++ lowerL value

/-! ## Store layer (`src/stage2/src/db/store.py`, schema in `db/schema.py`) -/

/-- A row of the `markets` table, restricted to the columns the indexing
pipeline reads (`fetch_market_by_token_id` result keys used by
`parse_trade_from_log`). -/
structure MarketRow where
  market_id : Nat
  condition_id : Str
  yes_token_id : Str
  no_token_id : Str
  status : Str
  deriving Repr, DecidableEq

/-- A row of the `trades` table as built by `parse_trade_from_log`. -/
structure TradeRow where
  market_id : Nat
  tx_hash : Str
  log_index : Nat
  block_number : Nat
  timestamp : Str
  exchange : Str
  order_hash : Str
  maker : Str
  taker : Str
  side : Str
  outcome : Str
  price : Str
  size : Str
  token_id : Str
  maker_asset_id : Str
  taker_asset_id : Str
  maker_amount : Str
  taker_amount : Str
  fee : Str
  deriving Repr, DecidableEq

/-- The logical database state: the three tables the pipeline touches.
`sync_state` maps a stream key to its last processed block
(`key` is a primary key, so one entry per key). -/
structure DbState where
  markets : List MarketRow
  trades : List TradeRow
  sync_state : List (Str × Nat)
  deriving Repr, DecidableEq

/-- A `sqlite3` connection: `durable` is what is on disk (survives a
crash), `pending` is the state seen through the connection including
uncommitted writes. `conn.commit()` makes pending durable. -/
structure Conn where
  durable : DbState
  pending : DbState
  deriving Repr, DecidableEq

/-- `conn.commit()`. -/
def commit (c : Conn) : Conn := { c with durable := c.pending }

/-- Does the `trades` table already hold a row with this
`(tx_hash, log_index)` pair? This is the `UNIQUE(tx_hash, log_index)`
constraint of `schema.py` that raises `sqlite3.IntegrityError`. -/
def hasTradeKey (rows : List TradeRow) (t : TradeRow) : Bool :=
  rows.any (fun r => r.tx_hash == t.tx_hash && r.log_index == t.log_index)

/-- The per-row loop of `insert_trades`: try to insert each row; an
`IntegrityError` (duplicate `(tx_hash, log_index)`) is swallowed and the
row is skipped without incrementing the inserted count. -/
def insertTradesLoop : List TradeRow → List TradeRow → Nat →
    List TradeRow × Nat
  | [], rows, n => (rows, n)
  | t :: rest, rows, n =>
    if hasTradeKey rows t then insertTradesLoop rest rows n
    else insertTradesLoop rest (rows ++ [t]) (n + 1)

/-- `insert_trades`: batch-insert ignoring duplicates, then commit once at
the end; returns the new connection and the inserted count. An empty batch
returns immediately without committing. -/
def insert_trades (conn : Conn) (trades : List TradeRow) : Conn × Nat :=
  if trades.isEmpty then (conn, 0)
  else
    let res := insertTradesLoop trades conn.pending.trades 0
    (commit { conn with pending := { conn.pending with trades := res.1 } }, res.2)

/-- Upsert into the `sync_state` association list
(`INSERT ... ON CONFLICT(key) DO UPDATE`). -/
def setSyncKey : List (Str × Nat) → Str → Nat → List (Str × Nat)
  | [], k, v => [(k, v)]
  | (k', v') :: rest, k, v =>
    if k' == k then (k', v) :: rest else (k', v') :: setSyncKey rest k v

/-- `update_sync_state`: upsert the watermark for `key` and commit. -/
def update_sync_state (conn : Conn) (key : Str) (last_block : Nat) : Conn :=
  commit { conn with pending :=
    { conn.pending with sync_state := setSyncKey conn.pending.sync_state key last_block } }

/-- `get_sync_state` reading a given database state. -/
def get_sync_state (db : DbState) (key : Str) : Option Nat :=
  (db.sync_state.find? (fun p => p.1 == key)).map (fun p => p.2)

/-- `fetch_market_by_token_id`:
`SELECT ... FROM markets WHERE yes_token_id = ? OR no_token_id = ?`.
SQLite compares `TEXT` with the default BINARY collation, so both
equalities are exact and case-sensitive; `fetchone` returns the first
matching row. -/
def fetch_market_by_token_id (db : DbState) (token_id : Str) :
    Option MarketRow :=
  db.markets.find? (fun m => m.yes_token_id == token_id || m.no_token_id == token_id)

/-! ## Indexing pipeline (`src/stage2/src/indexer/run.py`) -/

/-- `parse_trade_from_log`: decode the log (uncaught exceptions propagate
as `.error`), resolve the token id against the market registry (`none`
when no market matches — the caller counts it as skipped), and build the
trade record, deriving the outcome by lowercase comparison of the token id
against the market's stored yes/no token ids. -/
def parse_trade_from_log (log : Log) (timestamp : Str) (db : DbState) :
    Except DecodeErr (Option TradeRow) := do
  let trade ← decode_order_filled log
  let token_id := trade.token_id
  match fetch_market_by_token_id db token_id with
  | none => return none
  | some market =>
    let outcome :=
      if lowerL token_id == lowerL market.yes_token_id then strL "YES"
      else if lowerL token_id == lowerL market.no_token_id then strL "NO"
      else strL "UNKNOWN"
    return some {
      market_id := market.market_id
      tx_hash := trade.tx_hash
      log_index := trade.log_index
      block_number := log.blockNumber
      timestamp := timestamp
      exchange := trade.exchange
      order_hash := trade.order_hash
      maker := trade.maker
      taker := trade.taker
      side := trade.side
      outcome := outcome
      price := trade.price
      size := decDivStr6 (decToNat
        (if trade.side == strL "BUY" then trade.taker_amount else trade.maker_amount))
      token_id := token_id
      maker_asset_id := trade.maker_asset_id
      taker_asset_id := trade.taker_asset_id
      maker_amount := trade.maker_amount
      taker_amount := trade.taker_amount
      fee := trade.fee }

/-- The per-log loop of `run_indexer`: resolve the block timestamp
(`get_block_timestamp` + `format_timestamp`, an external lookup passed in
as `fetchTs`), then parse. A parse exception propagates and aborts the
loop; a `none` result increments the skipped counter. Returns the parsed
trade records in log order and the skipped count. -/
def indexerLoop (fetchTs : Nat → Str) (db : DbState) :
    List Log → Except DecodeErr (List TradeRow × Nat)
  | [] => .ok ([], 0)
  | log :: rest => do
    let timestamp := fetchTs log.blockNumber
    match ← parse_trade_from_log log timestamp db with
    | some tr =>
      let (trs, sk) ← indexerLoop fetchTs db rest
      return (tr :: trs, sk)
    | none =>
      let (trs, sk) ← indexerLoop fetchTs db rest
      return (trs, sk + 1)

/-- The counters `run_indexer` returns. -/
structure RunResult where
  from_block : Nat
  to_block : Nat
  total_logs : Nat
  parsed_trades : Nat
  inserted_trades : Nat
  skipped_trades : Nat
  sample_trades : List TradeRow
  deriving Repr, DecidableEq

/-- `run_indexer` on an already-fetched batch of logs (`fetch_logs` is the
external log source; the node has filtered by exchange address and the
`OrderFilled` topic): parse every log, batch-insert the resolved trades,
then advance the sync watermark to `to_block`. Besides the result and the
final connection, the model returns the trace of durable database states —
the initial one and one snapshot per commit — to let the persistence
claims speak about what is on disk between the two commits. An uncaught
decode exception aborts the run before anything is committed. -/
def run_indexer (fetchTs : Nat → Str) (logs : List Log) (conn : Conn)
    (from_block to_block : Nat) (sync_state_key : Str) :
    Except DecodeErr (RunResult × Conn × List DbState) := do
  let parsed ← indexerLoop fetchTs conn.pending logs
  let trades := parsed.1
  let skipped := parsed.2
  let ins := insert_trades conn trades
  let conn1 := ins.1
  let conn2 := update_sync_state conn1 sync_state_key to_block
  return ({ from_block := from_block
            to_block := to_block
            total_logs := logs.length
            parsed_trades := trades.length
            inserted_trades := ins.2
            skipped_trades := skipped
            sample_trades := trades.take 5 },
          conn2, [conn.durable, conn1.durable, conn2.durable])

/-! ## Stage-1 transaction decoder (`src/stage1/src/trade_decoder.py`) -/

/-- Stage1 `parse_order_filled_log(log, exchange)`: identical field logic
to stage2's `decode_order_filled`, with the exchange passed by the caller
(the Python duplicates the body verbatim between the stages). -/
def parse_order_filled_log (log : Log) (exchange : Str) :
    Except DecodeErr Trade :=
  orderFilledFields log exchange

/-- Stage1 `decode_transaction`, applied to the receipt's log list: keep
only logs emitted by a known exchange whose first topic is the
`OrderFilled` signature (`orderFilledTopic`, the keccak constant computed
at import time, passed in here), drop logs whose taker is the exchange
itself (self-fill artifact), and parse the rest — a parse exception is
caught per log and that log skipped. The address checksumming and the
`topics[3]` access in the filter run outside the try/except, so they can
still raise and abort the whole call; the model surfaces that as
`.error`. -/
def decode_transaction (orderFilledTopic : Str) :
    List Log → Except DecodeErr (List Trade)
  | [] => .ok []
  | log :: rest => do
    match to_checksum_address log.address with
    | none => .error .badAddress
    | some chk =>
      let exchange? :=
        if chk == (to_checksum_address CTF_EXCHANGE).getD [] then
          some CTF_EXCHANGE
        else if chk == (to_checksum_address NEGRISK_CTF_EXCHANGE).getD [] then
          some NEGRISK_CTF_EXCHANGE
        else none
      match exchange? with
      | none => decode_transaction orderFilledTopic rest
      | some exchange =>
        match log.topics with
        | [] => decode_transaction orderFilledTopic rest
        | t0 :: _ =>
          if lowerL (bytesToHex t0) ≠ lowerL orderFilledTopic then
            decode_transaction orderFilledTopic rest
          else
            match log.topics.drop 3 with
            | [] => .error .tooFewTopics
            | t3 :: _ =>
              match to_checksum_address (strL "0x" ++ takeLast (bytesToHex t3) 40) with
              | none => .error .badAddress
              | some taker_address =>
                if lowerL taker_address == lowerL exchange then
                  decode_transaction orderFilledTopic rest
                else
                  match parse_order_filled_log log exchange with
                  | .ok trade => do
                    let trades ← decode_transaction orderFilledTopic rest
                    return trade :: trades
                  | .error _ => decode_transaction orderFilledTopic rest

/-! ## Market discovery ingestion (`src/stage2/src/indexer/discovery.py`) -/

/-- A token identifier as it arrives from the Gamma API `clobTokenIds`
field after JSON decoding: either a string or an integer. -/
inductive TokVal where
  | str (s : Str)
  | int (n : Nat)
  deriving Repr, DecidableEq

/-- The token-id normalisation of `parse_market_from_gamma` (lines
144–159): a digit-only string is converted to `int`; an `int` is rendered
as `f"0x{x:064x}"`; any other string is kept verbatim. -/
def gammaTokenId (v : TokVal) : Str :=
  match v with
  | .str s => if isDigits s then strL "0x" ++ hexPad (decToNat s) 64 else s
  | .int n => strL "0x" ++ hexPad n 64

/-- The token-id portion of `parse_market_from_gamma`: with at least two
entries in `clobTokenIds` the first two become the yes/no token ids via
`gammaTokenId`; otherwise both fields are the empty string. -/
def parse_market_from_gamma_tokens (clob_token_ids : List TokVal) :
    Str × Str :=
  match clob_token_ids with
  | y :: n :: _ => (gammaTokenId y, gammaTokenId n)
  | _ => (strL "", strL "")

/-! ## Concrete evaluation inputs

A small, fully concrete scenario used to evaluate the pipeline: one market
whose YES token is `0x…01`, one well-formed trade-fill log for that token,
one log with too few topics, and one self-fill log whose taker is the
exchange contract itself. -/

/-- An arbitrary 32-byte event-signature topic. -/
def demoTopic0 : List Nat := List.replicate 32 208

/-- An arbitrary 32-byte order hash topic. -/
def demoOrderHash : List Nat := List.replicate 32 171

/-- Maker topic: a 32-byte word whose low 20 bytes are the maker address. -/
def demoMakerTopic : List Nat := List.replicate 12 0 ++ List.replicate 20 17

/-- Taker topic for an ordinary fill (taker is not the exchange). -/
def demoTakerTopic : List Nat := List.replicate 12 0 ++ List.replicate 20 34

/-- The 20 address bytes of `CTF_EXCHANGE`
(`0x4bFb41d5B3570DeFd03C39a9A4D8dE6Bd8B8982E`). -/
def ctfExchangeBytes : List Nat :=
  [75, 251, 65, 213, 179, 87, 13, 239, 208, 60, 57, 169, 164, 216, 222, 107,
   216, 184, 152, 46]

/-- Taker topic of a self-fill log: the low 20 bytes are the exchange's own
address. -/
def selfFillTakerTopic : List Nat := List.replicate 12 0 ++ ctfExchangeBytes

/-- Data payload of the concrete scenario of spec §8: `makerAssetId = 0`,
`takerAssetId = 1`, `makerAmountFilled = 1000000`,
`takerAmountFilled = 2000000`, `fee = 0`. -/
def demoData : List Nat :=
  natToBytes 32 0 ++ natToBytes 32 1 ++ natToBytes 32 1000000 ++
  natToBytes 32 2000000 ++ natToBytes 32 0

/-- A well-formed trade-fill log for the demo market's YES token. -/
def demoLog : Log :=
  { address := CTF_EXCHANGE
    topics := [demoTopic0, demoOrderHash, demoMakerTopic, demoTakerTopic]
    data := demoData
    transactionHash := [170, 187]
    logIndex := 5
    blockNumber := 100 }

/-- A malformed log: only three topics, so `decode_order_filled` hits an
`IndexError` on `topics[3]`. -/
def badLog : Log :=
  { address := CTF_EXCHANGE
    topics := [demoTopic0, demoOrderHash, demoMakerTopic]
    data := demoData
    transactionHash := [204]
    logIndex := 6
    blockNumber := 100 }

/-- A self-fill log: identical to `demoLog` except that the taker is the
emitting exchange's own address. -/
def selfFillLog : Log :=
  { address := CTF_EXCHANGE
    topics := [demoTopic0, demoOrderHash, demoMakerTopic, selfFillTakerTopic]
    data := demoData
    transactionHash := [221]
    logIndex := 7
    blockNumber := 100 }

/-- The demo market: its YES token id is `0x` + 64-hex of 1, its NO token
id `0x` + 64-hex of 2 (exactly the canonical form the decoder emits). -/
def demoMarket : MarketRow :=
  { market_id := 1
    condition_id := strL "0xc1"
    yes_token_id := strL "0x" ++ hexPad 1 64
    no_token_id := strL "0x" ++ hexPad 2 64
    status := strL "active" }

/-- Database state holding just the demo market. -/
def demoDb : DbState := { markets := [demoMarket], trades := [], sync_state := [] }

/-- A freshly opened connection on the demo database. -/
def demoConn : Conn := { durable := demoDb, pending := demoDb }

/-- Block-timestamp resolution for the demo runs (external lookup). -/
def demoTs : Nat → Str := fun _ => strL "2026-01-01T00:00:00"

/-- The stream key used by the pipeline (`sync_state_key` default). -/
def demoKey : Str := strL "trade_indexer"

/-- The demo pipeline run on the single well-formed log. -/
def demoRun : Except DecodeErr (RunResult × Conn × List DbState) :=
  run_indexer demoTs [demoLog] demoConn 100 100 demoKey

/-- Unwrap an `Except` with a default, used to name the components of a
concrete successful run inside closed statements. -/
def exceptD (e : Except DecodeErr α) (d : α) : α :=
  match e with
  | .ok a => a
  | .error _ => d

/-- A default `Trade` for `exceptD`. -/
def defaultTrade : Trade :=
  { tx_hash := [], log_index := 0, exchange := [], order_hash := [],
    maker := [], taker := [], maker_asset_id := [], taker_asset_id := [],
    maker_amount := [], taker_amount := [], fee := [], price := [],
    token_id := [], side := [] }

/-- Is the `Except` a success? (total-function view of "not an error"). -/
def exceptIsOk (e : Except DecodeErr α) : Bool :=
  match e with
  | .ok _ => true
  | .error _ => false

/-- A default `TradeRow` for unwrapping optional results in closed
statements. -/
def defaultTradeRow : TradeRow :=
  { market_id := 0, tx_hash := [], log_index := 0, block_number := 0,
    timestamp := [], exchange := [], order_hash := [], maker := [],
    taker := [], side := [], outcome := [], price := [], size := [],
    token_id := [], maker_asset_id := [], taker_asset_id := [],
    maker_amount := [], taker_amount := [], fee := [] }

/-- A default pipeline output for `exceptD`. -/
def emptyRunOut : RunResult × Conn × List DbState :=
  ({ from_block := 0, to_block := 0, total_logs := 0, parsed_trades := 0,
     inserted_trades := 0, skipped_trades := 0, sample_trades := [] },
   { durable := { markets := [], trades := [], sync_state := [] },
     pending := { markets := [], trades := [], sync_state := [] } }, [])

/-- A market whose stored token ids contain uppercase hex letters, used to
probe the case sensitivity of `fetch_market_by_token_id`. -/
def mixedCaseMarket : MarketRow :=
  { market_id := 1
    condition_id := strL "0xc2"
    yes_token_id := strL "0xAB"
    no_token_id := strL "0xCD"
    status := strL "active" }

/-- Database state holding just the mixed-case market. -/
def mixedCaseDb : DbState :=
  { markets := [mixedCaseMarket], trades := [], sync_state := [] }

/-- Well-formedness of a hex-string input of the derivation engine at
canonical width `w`: hex digits only, not longer than the canonical
width. -/
def WfHex (s : Str) (w : Nat) : Prop :=
  s.all isHexChar = true ∧ s.length ≤ w

/-! ## Theorems -/

/-- C4: a log whose taker is the emitting exchange's own address is *not*
discarded by the stage2 indexing pipeline: it decodes, resolves, and is
persisted, contributing one inserted trade instead of the zero the spec
requires. Stage1's `decode_transaction` on the very same log does apply
the self-fill filter and yields no trade, which is the behaviour the spec
describes. -/
theorem claim_C4_selffill_not_discarded :
    lowerL (exceptD (decode_order_filled selfFillLog) defaultTrade).taker =
      lowerL CTF_EXCHANGE ∧
    (exceptD (run_indexer demoTs [selfFillLog] demoConn 100 100 demoKey)
      emptyRunOut).1.inserted_trades = 1 ∧
    decode_transaction (bytesToHex demoTopic0) [selfFillLog] = .ok [] := by
  refine ⟨by decide, by decide, by rfl⟩

/-- C5: a malformed log (three topics instead of four) makes
`decode_order_filled` raise, and `run_indexer` has no per-log exception
handling: the whole batch aborts — the well-formed first log is discarded
too, nothing is persisted, and nothing is counted as skipped, contrary to
the claim that only the offending log is rejected. -/
theorem claim_C5_decode_failure_aborts_batch :
    decode_order_filled badLog = .error .tooFewTopics ∧
    run_indexer demoTs [demoLog, badLog] demoConn 100 100 demoKey =
      .error .tooFewTopics := by
  refine ⟨by rfl, by rfl⟩

/-- C3 counterexample: on a concrete run the durable-state trace is
initial / after-`insert_trades`-commit / after-`update_sync_state`-commit,
and the middle durable state already holds the inserted trade while the
watermark is still absent: the insert and the watermark advance are two
separate transactions, not one atomic unit of work. -/
theorem claim_C3_counterexample :
    (exceptD demoRun emptyRunOut).2.2.map
      (fun d => (d.trades.length, get_sync_state d demoKey)) =
    [(0, none), (1, none), (1, some 100)] := by
  decide

/-- C7 counterexample: `fetch_market_by_token_id` compares with SQLite's
default BINARY collation, so a token id differing from the stored one only
in letter case does not resolve: the claim's case-insensitivity fails. -/
theorem claim_C7_counterexample :
    fetch_market_by_token_id mixedCaseDb (strL "0xAB") = some mixedCaseMarket ∧
    fetch_market_by_token_id mixedCaseDb (strL "0xab") = none ∧
    lowerL (strL "0xAB") = lowerL (strL "0xab") := by
  refine ⟨by decide, by decide, by decide⟩

/-- C8 counterexample: an already-hex token id string passes through
`parse_market_from_gamma` verbatim — it is neither lowercased nor
zero-padded to 64 hex characters, so the claimed canonical form is not
produced at the ingestion boundary. -/
theorem claim_C8_counterexample :
    parse_market_from_gamma_tokens [.str (strL "0xAB"), .str (strL "0xCD")] =
      (strL "0xAB", strL "0xCD") ∧
    strL "0xAB" ≠ lowerL (strL "0xAB") ∧
    (strL "0xAB").length ≠ 66 := by
  refine ⟨by decide, by decide, by decide⟩

/-- A string of hex digits cannot start with `0x` ( `x` is not a hex digit). -/
theorem starts0x_eq_false_of_allHex {s : Str} (h : s.all isHexChar = true) :
    starts0x s = false := by
  match s with
  | [] => rfl
  | [_] => rfl
  | a :: b :: t =>
    simp only [List.all_cons, Bool.and_eq_true] at h
    have hb : b ≠ 'x' := by
      intro e
      rw [e] at h
      exact absurd h.2.1 (by decide)
    have : (b == 'x') = false := beq_eq_false_iff_ne.mpr hb
    simp [starts0x, this]

/-- Length of a zero-filled string. -/
theorem zfillL_length (s : Str) (w : Nat) :
    (zfillL s w).length = max w s.length := by
  simp only [zfillL, List.length_append, List.length_replicate]
  omega

/-- Zero-filling preserves hex-digit-ness. -/
theorem zfillL_allHex {s : Str} (h : s.all isHexChar = true) (w : Nat) :
    (zfillL s w).all isHexChar = true := by
  simp only [zfillL, List.all_append, Bool.and_eq_true]
  refine ⟨?_, h⟩
  simp only [List.all_eq_true]
  intro c hc
  rw [List.eq_of_mem_replicate hc]
  decide

/-- Zero-filling an already zero-filled string changes nothing. -/
theorem zfillL_idem (s : Str) (w : Nat) :
    zfillL (zfillL s w) w = zfillL s w := by
  have h0 : w - (zfillL s w).length = 0 := by
    rw [zfillL_length]; omega
  show List.replicate (w - (zfillL s w).length) '0' ++ zfillL s w = zfillL s w
  rw [h0]
  rfl

/-- Dropping the explicit `0x` added in front of a string gives it back. -/
theorem drop2_0x (s : Str) : (strL "0x" ++ s).drop 2 = s := rfl

/-- An explicitly `0x`-prefixed string starts with `0x`. -/
theorem starts0x_0x_append (s : Str) : starts0x (strL "0x" ++ s) = true := rfl

/-- `ensure0x` on a string that starts with `0x`. -/
theorem ensure0x_of_starts {s : Str} (h : starts0x s = true) :
    ensure0x s = s := by
  simp [ensure0x, h]

/-- `ensure0x` on a string that does not start with `0x`. -/
theorem ensure0x_of_not {s : Str} (h : starts0x s = false) :
    ensure0x s = strL "0x" ++ s := by
  simp [ensure0x, h]

/-- The canonicalisation the derivation functions apply to an argument is
insensitive to an explicit `0x` prefix. -/
theorem canonArg_0x {s : Str} (h : starts0x s = false) (w : Nat) :
    zfillL ((ensure0x (strL "0x" ++ s)).drop 2) w =
    zfillL ((ensure0x s).drop 2) w := by
  rw [ensure0x_of_starts (starts0x_0x_append s), ensure0x_of_not h, drop2_0x]

/-- The canonicalisation the derivation functions apply to an argument is
insensitive to prior left-zero-padding of a hex-digit string. -/
theorem canonArg_zfill {s : Str} (h : s.all isHexChar = true) (w : Nat) :
    zfillL ((ensure0x (zfillL s w)).drop 2) w =
    zfillL ((ensure0x s).drop 2) w := by
  rw [ensure0x_of_not (starts0x_eq_false_of_allHex (zfillL_allHex h w)),
    ensure0x_of_not (starts0x_eq_false_of_allHex h), drop2_0x, drop2_0x,
    zfillL_idem]

/-- A hex digit always has a value. -/
theorem hexVal_isSome {c : Char} (h : isHexChar c = true) :
    (hexVal? c).isSome = true := by
  unfold isHexChar at h
  simp only [Bool.or_eq_true, Bool.and_eq_true, decide_eq_true_eq] at h
  unfold hexVal?
  split
  · rfl
  · split
    · rfl
    · split
      · rfl
      · omega

/-- `bytes.fromhex` succeeds on an even-length string of hex digits and
yields one byte per digit pair. -/
theorem hexPairsToBytes_ok :
    ∀ s : Str, s.all isHexChar = true → s.length % 2 = 0 →
      ∃ bs, hexPairsToBytes s = some bs ∧ bs.length = s.length / 2
  | [] => fun _ _ => ⟨[], rfl, rfl⟩
  | [_] => fun _ h => by simp at h
  | c1 :: c2 :: rest => fun h1 h2 => by
    simp only [List.all_cons, Bool.and_eq_true] at h1
    obtain ⟨hc1, hc2, hrest⟩ := h1
    have hlen : rest.length % 2 = 0 := by
      simp only [List.length_cons] at h2
      omega
    obtain ⟨bs, hbs, hbl⟩ := hexPairsToBytes_ok rest hrest hlen
    obtain ⟨a, ha⟩ := Option.isSome_iff_exists.mp (hexVal_isSome hc1)
    obtain ⟨b, hb⟩ := Option.isSome_iff_exists.mp (hexVal_isSome hc2)
    refine ⟨(a * 16 + b) :: bs, ?_, ?_⟩
    · simp [hexPairsToBytes, ha, hb, hbs]
    · simp only [List.length_cons, hbl]
      omega

/-- Under the well-formedness the derivation engine expects, the 32-byte
decoding it performs succeeds and produces exactly 32 bytes. -/
theorem bytes32Of_ok {s : Str} (h : WfHex s 64) :
    hexPairsToBytes (zfillL s 64) = some (bytes32Of s) ∧
    (bytes32Of s).length = 32 := by
  obtain ⟨hhex, hlen⟩ := h
  have hzl : (zfillL s 64).length = 64 := by
    rw [zfillL_length]; omega
  obtain ⟨bs, hbs, hbl⟩ := hexPairsToBytes_ok _ (zfillL_allHex hhex 64)
    (by rw [hzl])
  have hb32 : bytes32Of s = bs := by
    unfold bytes32Of
    rw [hbs]
    rfl
  refine ⟨by rw [hbs, hb32], ?_⟩
  rw [hb32, hbl, hzl]

/-- The 20-byte decoding of an address succeeds and produces 20 bytes. -/
theorem bytes20Of_ok {s : Str} (h : WfHex s 40) :
    hexPairsToBytes (zfillL s 40) = some (bytes20Of s) ∧
    (bytes20Of s).length = 20 := by
  obtain ⟨hhex, hlen⟩ := h
  have hzl : (zfillL s 40).length = 40 := by
    rw [zfillL_length]; omega
  obtain ⟨bs, hbs, hbl⟩ := hexPairsToBytes_ok _ (zfillL_allHex hhex 40)
    (by rw [hzl])
  have hb20 : bytes20Of s = bs := by
    unfold bytes20Of
    rw [hbs]
    rfl
  refine ⟨by rw [hbs, hb20], ?_⟩
  rw [hb20, hbl, hzl]

/-- `n.to_bytes(w, 'big')` produces exactly `w` bytes. -/
theorem natToBytes_length : ∀ (w n : Nat), (natToBytes w n).length = w
  | 0, _ => rfl
  | w + 1, n => by
    simp [natToBytes, natToBytes_length w]

/-- C2: on well-formed hex inputs, `get_collection_id` hashes exactly the
raw packed 96-byte concatenation of the 32-byte parent, the 32-byte
condition id, and the 32-byte big-endian index set (the spec-level
`collectionId_spec`, no ABI head/tail encoding), and `get_position_id`
hashes exactly the packed 52-byte concatenation of the 20-byte address and
the 32-byte collection id (`positionId_spec`), for any digest function. -/
theorem claim_C2_packed_derivation (keccak : List Nat → List Nat)
    (p c tok coll : Str) (i : Nat)
    (hp : WfHex p 64) (hc : WfHex c 64) (hi : i < 2 ^ 256)
    (htok : WfHex tok 40) (hcoll : WfHex coll 64) :
    get_collection_id keccak p c i =
      some (strL "0x" ++ bytesToHex
        (collectionId_spec keccak (bytes32Of p) (bytes32Of c) i)) ∧
    (bytes32Of p).length = 32 ∧ (bytes32Of c).length = 32 ∧
    (bytes32Of p ++ bytes32Of c ++ natToBytes 32 i).length = 96 ∧
    get_position_id keccak tok coll =
      some (strL "0x" ++ bytesToHex
        (positionId_spec keccak (bytes20Of tok) (bytes32Of coll))) ∧
    (bytes20Of tok).length = 20 ∧
    (bytes20Of tok ++ bytes32Of coll).length = 52 := by
  obtain ⟨hpb, hpl⟩ := bytes32Of_ok hp
  obtain ⟨hcb, hcl⟩ := bytes32Of_ok hc
  obtain ⟨htb, htl⟩ := bytes20Of_ok htok
  obtain ⟨hcob, hcol⟩ := bytes32Of_ok hcoll
  refine ⟨?_, hpl, hcl, ?_, ?_, htl, ?_⟩
  · simp only [get_collection_id]
    rw [ensure0x_of_not (starts0x_eq_false_of_allHex hp.1),
      ensure0x_of_not (starts0x_eq_false_of_allHex hc.1)]
    simp only [drop2_0x, hpb, hcb]
    split_ifs
    simp [collectionId_spec]
  · simp [hpl, hcl, natToBytes_length]
  · simp only [get_position_id]
    rw [ensure0x_of_not (starts0x_eq_false_of_allHex htok.1),
      ensure0x_of_not (starts0x_eq_false_of_allHex hcoll.1)]
    simp only [drop2_0x, htb, hcob]
    simp [positionId_spec]
  · simp [htl, hcol]

/-- C2 witness: the derivation theorem applied at concrete hex inputs and
the identity as the digest function. -/
theorem claim_C2_witness :
    get_collection_id id (strL "ab") (strL "cd") 1 =
      some (strL "0x" ++ bytesToHex
        (collectionId_spec id (bytes32Of (strL "ab")) (bytes32Of (strL "cd")) 1)) ∧
    (bytes32Of (strL "ab")).length = 32 ∧ (bytes32Of (strL "cd")).length = 32 ∧
    (bytes32Of (strL "ab") ++ bytes32Of (strL "cd") ++ natToBytes 32 1).length = 96 ∧
    get_position_id id (strL "ee") (strL "ff") =
      some (strL "0x" ++ bytesToHex
        (positionId_spec id (bytes20Of (strL "ee")) (bytes32Of (strL "ff")))) ∧
    (bytes20Of (strL "ee")).length = 20 ∧
    (bytes20Of (strL "ee") ++ bytes32Of (strL "ff")).length = 52 :=
  claim_C2_packed_derivation id (strL "ab") (strL "cd") (strL "ee") (strL "ff") 1
    ⟨by decide, by decide⟩ ⟨by decide, by decide⟩ (by norm_num)
    ⟨by decide, by decide⟩ ⟨by decide, by decide⟩

/-- C10: the derived identifiers are insensitive to an explicit `0x`
prefix on any hex-string argument and to left-zero-padding an argument to
its canonical width, for both `get_collection_id` and `get_position_id`
and for any digest function. -/
theorem claim_C10_hex_insensitivity (keccak : List Nat → List Nat)
    (p c a coll : Str) (i : Nat)
    (hp : p.all isHexChar = true) (hc : c.all isHexChar = true)
    (ha : a.all isHexChar = true) (hcoll : coll.all isHexChar = true) :
    get_collection_id keccak (strL "0x" ++ p) c i =
      get_collection_id keccak p c i ∧
    get_collection_id keccak (zfillL p 64) c i =
      get_collection_id keccak p c i ∧
    get_collection_id keccak p (strL "0x" ++ c) i =
      get_collection_id keccak p c i ∧
    get_collection_id keccak p (zfillL c 64) i =
      get_collection_id keccak p c i ∧
    get_position_id keccak (strL "0x" ++ a) coll =
      get_position_id keccak a coll ∧
    get_position_id keccak (zfillL a 40) coll =
      get_position_id keccak a coll ∧
    get_position_id keccak a (strL "0x" ++ coll) =
      get_position_id keccak a coll ∧
    get_position_id keccak a (zfillL coll 64) =
      get_position_id keccak a coll := by
  refine ⟨?_, ?_, ?_, ?_, ?_, ?_, ?_, ?_⟩ <;>
    simp only [get_collection_id, get_position_id]
  · rw [canonArg_0x (starts0x_eq_false_of_allHex hp)]
  · rw [canonArg_zfill hp]
  · rw [canonArg_0x (starts0x_eq_false_of_allHex hc)]
  · rw [canonArg_zfill hc]
  · rw [canonArg_0x (starts0x_eq_false_of_allHex ha)]
  · rw [canonArg_zfill ha]
  · rw [canonArg_0x (starts0x_eq_false_of_allHex hcoll)]
  · rw [canonArg_zfill hcoll]

/-- C10 witness: prefix/padding insensitivity at concrete inputs. -/
theorem claim_C10_witness :
    get_collection_id id (strL "0x" ++ strL "ab") (strL "cd") 1 =
      get_collection_id id (strL "ab") (strL "cd") 1 ∧
    get_collection_id id (zfillL (strL "ab") 64) (strL "cd") 1 =
      get_collection_id id (strL "ab") (strL "cd") 1 ∧
    get_collection_id id (strL "ab") (strL "0x" ++ strL "cd") 1 =
      get_collection_id id (strL "ab") (strL "cd") 1 ∧
    get_collection_id id (strL "ab") (zfillL (strL "cd") 64) 1 =
      get_collection_id id (strL "ab") (strL "cd") 1 ∧
    get_position_id id (strL "0x" ++ strL "ee") (strL "ff") =
      get_position_id id (strL "ee") (strL "ff") ∧
    get_position_id id (zfillL (strL "ee") 40) (strL "ff") =
      get_position_id id (strL "ee") (strL "ff") ∧
    get_position_id id (strL "ee") (strL "0x" ++ strL "ff") =
      get_position_id id (strL "ee") (strL "ff") ∧
    get_position_id id (strL "ee") (zfillL (strL "ff") 64) =
      get_position_id id (strL "ee") (strL "ff") :=
  claim_C10_hex_insensitivity id (strL "ab") (strL "cd") (strL "ee") (strL "ff") 1
    (by decide) (by decide) (by decide) (by decide)

/-- Evaluation of the price rendering at the concrete spec-§8 ratio:
a million collateral units against two million token units is a price of
one half, rendered as `0.5`. -/
theorem fmt6_half :
    fmt6 (((1000000 : Nat) : ℚ) / ((2000000 : Nat) : ℚ)) = strL "0.5" := by
  have hn : ((((1000000 : Nat) : ℚ)) / (((2000000 : Nat) : ℚ))).num = 1 := by
    norm_num
  have hd : ((((1000000 : Nat) : ℚ)) / (((2000000 : Nat) : ℚ))).den = 2 := by
    norm_num
  simp only [fmt6, hn, hd]
  decide

/-- The decoder's guarded price branch equals the plain rational ratio:
`ℚ` already sends a zero denominator to zero, which is exactly the
decoder's explicit guard. -/
theorem guardedRatio_eq (x y : Nat) :
    (if 0 < y then (x : ℚ) / (y : ℚ) else 0) = (x : ℚ) / (y : ℚ) := by
  split
  · rfl
  · have hy : y = 0 := by omega
    subst hy
    simp

/-- The BUY branch of the side/token/price rule. -/
theorem sideTokenPrice_buy {a : Nat} (b c d : Nat) (ha : a = 0) :
    sideTokenPrice a b c d =
      (strL "BUY", strL "0x" ++ hexPad b 64, (c : ℚ) / (d : ℚ)) := by
  subst ha
  simp [sideTokenPrice, guardedRatio_eq]

/-- The SELL branch of the side/token/price rule. -/
theorem sideTokenPrice_sell {a : Nat} (b c d : Nat) (ha : a ≠ 0) :
    sideTokenPrice a b c d =
      (strL "SELL", strL "0x" ++ hexPad a 64, (d : ℚ) / (c : ℚ)) := by
  simp [sideTokenPrice, ha, guardedRatio_eq]

/-- Inversion for `orderFilledFields`: a successfully decoded trade's
side, token id and price are exactly the side/token/price rule applied to
the five big-endian data words. -/
theorem orderFilledFields_ok {log : Log} {ex : Str} {t : Trade}
    (h : orderFilledFields log ex = .ok t) :
    t.side = (sideTokenPrice (dataWord log.data 0) (dataWord log.data 32)
      (dataWord log.data 64) (dataWord log.data 96)).1 ∧
    t.token_id = (sideTokenPrice (dataWord log.data 0) (dataWord log.data 32)
      (dataWord log.data 64) (dataWord log.data 96)).2.1 ∧
    t.price = fmt6 (sideTokenPrice (dataWord log.data 0) (dataWord log.data 32)
      (dataWord log.data 64) (dataWord log.data 96)).2.2 := by
  unfold orderFilledFields at h
  split at h
  · split at h
    · injection h with h
      subst h
      exact ⟨rfl, rfl, rfl⟩
    · cases h
  · cases h

/-- Inversion for `decode_order_filled`: the exchange resolution cannot
fail once the address checksums, so the field characterisation carries
over. -/
theorem decode_order_filled_ok {log : Log} {t : Trade}
    (h : decode_order_filled log = .ok t) :
    t.side = (sideTokenPrice (dataWord log.data 0) (dataWord log.data 32)
      (dataWord log.data 64) (dataWord log.data 96)).1 ∧
    t.token_id = (sideTokenPrice (dataWord log.data 0) (dataWord log.data 32)
      (dataWord log.data 64) (dataWord log.data 96)).2.1 ∧
    t.price = fmt6 (sideTokenPrice (dataWord log.data 0) (dataWord log.data 32)
      (dataWord log.data 64) (dataWord log.data 96)).2.2 := by
  unfold decode_order_filled at h
  split at h
  · cases h
  · exact orderFilledFields_ok h

/-- C1: for every log `decode_order_filled` accepts, if the decoded
`makerAssetId` is zero the trade is a BUY of the `takerAssetId` token at
price `makerAmountFilled / takerAmountFilled` (a `ℚ` ratio, which is zero
when the denominator is zero), and otherwise a SELL of the `makerAssetId`
token at price `takerAmountFilled / makerAmountFilled`; and the concrete
spec-§8 log (`makerAssetId=0`, `takerAssetId=1`, amounts 1000000/2000000)
decodes to side BUY, token id `0x…01`, price string `0.5`. -/
theorem claim_C1_order_filled_side_price (log : Log) (t : Trade)
    (h : decode_order_filled log = .ok t) :
    (dataWord log.data 0 = 0 →
      t.side = strL "BUY" ∧
      t.token_id = strL "0x" ++ hexPad (dataWord log.data 32) 64 ∧
      t.price = fmt6 ((dataWord log.data 64 : ℚ) / (dataWord log.data 96 : ℚ))) ∧
    (dataWord log.data 0 ≠ 0 →
      t.side = strL "SELL" ∧
      t.token_id = strL "0x" ++ hexPad (dataWord log.data 0) 64 ∧
      t.price = fmt6 ((dataWord log.data 96 : ℚ) / (dataWord log.data 64 : ℚ))) ∧
    decode_order_filled demoLog =
      .ok (exceptD (decode_order_filled demoLog) defaultTrade) ∧
    (exceptD (decode_order_filled demoLog) defaultTrade).side = strL "BUY" ∧
    (exceptD (decode_order_filled demoLog) defaultTrade).token_id =
      strL "0x" ++ hexPad 1 64 ∧
    (exceptD (decode_order_filled demoLog) defaultTrade).price = strL "0.5" := by
  obtain ⟨hs, htok, hp⟩ := decode_order_filled_ok h
  refine ⟨?_, ?_, by rfl, by rfl, by rfl, ?_⟩
  · intro hz
    rw [hs, htok, hp, sideTokenPrice_buy _ _ _ hz]
    exact ⟨rfl, rfl, rfl⟩
  · intro hz
    rw [hs, htok, hp, sideTokenPrice_sell _ _ _ hz]
    exact ⟨rfl, rfl, rfl⟩
  · rw [show (exceptD (decode_order_filled demoLog) defaultTrade).price =
      fmt6 (((1000000 : Nat) : ℚ) / ((2000000 : Nat) : ℚ)) from rfl, fmt6_half]

/-- C1 witness: the side/price rule applied to the concrete demo log. -/
theorem claim_C1_witness :
    (exceptD (decode_order_filled demoLog) defaultTrade).side = strL "BUY" ∧
    (exceptD (decode_order_filled demoLog) defaultTrade).token_id =
      strL "0x" ++ hexPad (dataWord demoLog.data 32) 64 ∧
    (exceptD (decode_order_filled demoLog) defaultTrade).price =
      fmt6 ((dataWord demoLog.data 64 : ℚ) / (dataWord demoLog.data 96 : ℚ)) :=
  (claim_C1_order_filled_side_price demoLog
    (exceptD (decode_order_filled demoLog) defaultTrade) (by rfl)).1 (by decide)

/-- `insert_trades` leaves the `markets` table of the pending state
untouched. -/
theorem insert_trades_pending_markets (cn : Conn) (ts : List TradeRow) :
    (insert_trades cn ts).1.pending.markets = cn.pending.markets := by
  unfold insert_trades
  split <;> rfl

/-- `insert_trades` leaves the `sync_state` table of the pending state
untouched. -/
theorem insert_trades_pending_sync (cn : Conn) (ts : List TradeRow) :
    (insert_trades cn ts).1.pending.sync_state = cn.pending.sync_state := by
  unfold insert_trades
  split <;> rfl

/-- After `insert_trades`, the connection's durable state coincides with
its pending state (it either committed, or had nothing to do and the two
already coincided). -/
theorem insert_trades_durable_eq_pending {cn : Conn} (ts : List TradeRow)
    (hcp : cn.pending = cn.durable) :
    (insert_trades cn ts).1.durable = (insert_trades cn ts).1.pending := by
  unfold insert_trades
  split
  · exact hcp.symm
  · rfl

/-- `update_sync_state` commits, so durable equals pending afterwards. -/
theorem update_sync_state_durable_eq_pending (cn : Conn) (k : Str) (v : Nat) :
    (update_sync_state cn k v).durable = (update_sync_state cn k v).pending :=
  rfl

/-- Looking up the key just written by `setSyncKey` yields the written
value. -/
theorem setSyncKey_get :
    ∀ (l : List (Str × Nat)) (k : Str) (v : Nat),
      ((setSyncKey l k v).find? (fun p => p.1 == k)).map (fun p => p.2) =
        some v
  | [], k, v => by simp [setSyncKey]
  | (k', v') :: rest, k, v => by
    by_cases hk : (k' == k) = true
    · simp [setSyncKey, hk]
    · have hk' : (k' == k) = false := by
        revert hk
        cases k' == k <;> simp
      simp only [setSyncKey, hk', Bool.false_eq_true, if_false]
      rw [List.find?_cons_of_neg _ (by simp [hk'])]
      exact setSyncKey_get rest k v

/-- Reading the watermark right after `update_sync_state` returns the
block it was advanced to. -/
theorem update_sync_state_get (cn : Conn) (k : Str) (v : Nat) :
    get_sync_state (update_sync_state cn k v).durable k = some v := by
  unfold update_sync_state get_sync_state commit
  exact setSyncKey_get cn.pending.sync_state k v

/-- C3 (amended): in every successful pipeline run the durable-state trace
is exactly initial / after-trade-commit / after-watermark-commit: the
middle durable state already holds the final trades table while its
watermark is still the initial one, and only the last durable state
carries the advanced watermark. So the watermark is advanced only after
the trades are durably persisted, but through two separate transactions
with an observable intermediate durable state, not one atomic unit. -/
theorem claim_C3_commit_ordering (fetchTs : Nat → Str) (logs : List Log)
    (conn : Conn) (fb tb : Nat) (key : Str) (r : RunResult) (c2 : Conn)
    (tr : List DbState)
    (hcp : conn.pending = conn.durable)
    (h : run_indexer fetchTs logs conn fb tb key = .ok (r, c2, tr)) :
    tr.length = 3 ∧
    tr.get? 0 = some conn.durable ∧
    (tr.get? 1).map DbState.sync_state = some conn.durable.sync_state ∧
    (tr.get? 1).map DbState.markets = some conn.durable.markets ∧
    (tr.get? 1).map DbState.trades = (tr.get? 2).map DbState.trades ∧
    (tr.get? 2).map (fun d => get_sync_state d key) = some (some tb) ∧
    tr.get? 2 = some c2.durable := by
  unfold run_indexer at h
  cases hloop : indexerLoop fetchTs conn.pending logs with
  | error e =>
    rw [hloop] at h
    cases h
  | ok parsed =>
    rw [hloop] at h
    simp only [bind, Except.bind, pure, Except.pure] at h
    injection h with h
    injection h with hr h
    injection h with hc2 htr
    subst htr hc2
    have hdp := @insert_trades_durable_eq_pending conn parsed.1 hcp
    refine ⟨rfl, rfl, ?_, ?_, ?_, ?_, rfl⟩
    · simp only [List.get?, Option.map_some']
      rw [hdp, insert_trades_pending_sync, hcp]
    · simp only [List.get?, Option.map_some']
      rw [hdp, insert_trades_pending_markets, hcp]
    · simp only [List.get?, Option.map_some']
      rw [hdp]
      rfl
    · simp only [List.get?, Option.map_some']
      rw [update_sync_state_get]

/-- C3 witness: the ordering theorem applied to the concrete demo run. -/
theorem claim_C3_witness :
    (exceptD demoRun emptyRunOut).2.2.length = 3 ∧
    (exceptD demoRun emptyRunOut).2.2.get? 0 = some demoConn.durable ∧
    ((exceptD demoRun emptyRunOut).2.2.get? 1).map DbState.sync_state =
      some demoConn.durable.sync_state ∧
    ((exceptD demoRun emptyRunOut).2.2.get? 1).map DbState.markets =
      some demoConn.durable.markets ∧
    ((exceptD demoRun emptyRunOut).2.2.get? 1).map DbState.trades =
      ((exceptD demoRun emptyRunOut).2.2.get? 2).map DbState.trades ∧
    ((exceptD demoRun emptyRunOut).2.2.get? 2).map
      (fun d => get_sync_state d demoKey) = some (some 100) ∧
    (exceptD demoRun emptyRunOut).2.2.get? 2 =
      some (exceptD demoRun emptyRunOut).2.1.durable :=
  claim_C3_commit_ordering demoTs [demoLog] demoConn 100 100 demoKey
    (exceptD demoRun emptyRunOut).1 (exceptD demoRun emptyRunOut).2.1
    (exceptD demoRun emptyRunOut).2.2 rfl rfl

/-- A row's key stays present when more rows are appended. -/
theorem hasTradeKey_append (rows more : List TradeRow) (t : TradeRow)
    (h : hasTradeKey rows t = true) :
    hasTradeKey (rows ++ more) t = true := by
  unfold hasTradeKey at h ⊢
  simp only [List.any_append, Bool.or_eq_true]
  exact Or.inl h

/-- A row matches its own key. -/
theorem hasTradeKey_self (rows : List TradeRow) (t : TradeRow)
    (h : t ∈ rows) : hasTradeKey rows t = true := by
  unfold hasTradeKey
  simp only [List.any_eq_true]
  exact ⟨t, h, by simp⟩

/-- The insert loop only ever adds rows, so an existing key survives it. -/
theorem insertTradesLoop_mono :
    ∀ (ts rows : List TradeRow) (n : Nat) (t : TradeRow),
      hasTradeKey rows t = true →
      hasTradeKey (insertTradesLoop ts rows n).1 t = true
  | [], _, _, _, h => h
  | u :: rest, rows, n, t, h => by
    unfold insertTradesLoop
    split
    · exact insertTradesLoop_mono rest rows n t h
    · exact insertTradesLoop_mono rest (rows ++ [u]) (n + 1) t
        (hasTradeKey_append rows [u] t h)

/-- After the insert loop, the key of every row of the input batch is
present in the resulting table (it was either inserted or already
there). -/
theorem insertTradesLoop_covers :
    ∀ (ts rows : List TradeRow) (n : Nat) (t : TradeRow), t ∈ ts →
      hasTradeKey (insertTradesLoop ts rows n).1 t = true
  | [], _, _, _, h => absurd h (List.not_mem_nil _)
  | u :: rest, rows, n, t, h => by
    unfold insertTradesLoop
    rcases List.mem_cons.mp h with rfl | hmem
    · split
      · next hk => exact insertTradesLoop_mono rest rows n t hk
      · exact insertTradesLoop_mono rest (rows ++ [t]) (n + 1) t
          (hasTradeKey_self _ t (by simp))
    · split
      · exact insertTradesLoop_covers rest rows n t hmem
      · exact insertTradesLoop_covers rest (rows ++ [u]) (n + 1) t hmem

/-- If every key of the batch is already present, the insert loop is a
no-op with a zero inserted count. -/
theorem insertTradesLoop_noop :
    ∀ (ts rows : List TradeRow) (n : Nat),
      (∀ t ∈ ts, hasTradeKey rows t = true) →
      insertTradesLoop ts rows n = (rows, n)
  | [], _, _, _ => rfl
  | u :: rest, rows, n, h => by
    unfold insertTradesLoop
    rw [if_pos (h u (by simp))]
    exact insertTradesLoop_noop rest rows n (fun t ht => h t (by simp [ht]))

/-- `parse_trade_from_log` reads the database only through the `markets`
table. -/
theorem parse_trade_markets {db db' : DbState} (log : Log) (ts : Str)
    (h : db.markets = db'.markets) :
    parse_trade_from_log log ts db = parse_trade_from_log log ts db' := by
  unfold parse_trade_from_log fetch_market_by_token_id
  rw [h]

/-- The per-log loop of the pipeline reads the database only through the
`markets` table. -/
theorem indexerLoop_markets {db db' : DbState} (f : Nat → Str)
    (h : db.markets = db'.markets) :
    ∀ logs : List Log, indexerLoop f db logs = indexerLoop f db' logs
  | [] => rfl
  | log :: rest => by
    simp only [indexerLoop]
    rw [parse_trade_markets log (f log.blockNumber) h,
      indexerLoop_markets f h rest]

/-- If every key of a batch is already stored and the connection is
committed, `insert_trades` returns the connection unchanged with a zero
inserted count (the duplicate-key error is swallowed per row). -/
theorem insert_trades_noop (cn : Conn) (ts : List TradeRow)
    (hcp : cn.pending = cn.durable)
    (hkeys : ∀ u ∈ ts, hasTradeKey cn.pending.trades u = true) :
    insert_trades cn ts = (cn, 0) := by
  obtain ⟨dur, pend⟩ := cn
  simp only at hcp hkeys
  subst hcp
  unfold insert_trades
  by_cases hemp : ts.isEmpty = true
  · rw [if_pos hemp]
  · rw [if_neg hemp]
    rw [insertTradesLoop_noop ts pend.trades 0 hkeys]
    rfl

/-- C6: (pipeline idempotence) a second `run_indexer` over the same batch
of logs, starting from the state a successful first run left behind,
succeeds, inserts zero additional trades, leaves the stored trades
unchanged and leaves the watermark at the same value; and (row level) a
single-row `insert_trades` whose `(tx_hash, log_index)` key is already
stored is a no-op on the table — not an error — returning an inserted
count of zero, so exactly the rows present before remain present. -/
theorem claim_C6_idempotent_reindex (f : Nat → Str) (logs : List Log)
    (conn : Conn) (fb tb : Nat) (key : Str) (r1 : RunResult) (c1 : Conn)
    (tr1 : List DbState) (cn : Conn) (t : TradeRow)
    (h1 : run_indexer f logs conn fb tb key = .ok (r1, c1, tr1))
    (hk : hasTradeKey cn.pending.trades t = true) :
    exceptIsOk (run_indexer f logs c1 fb tb key) = true ∧
    (exceptD (run_indexer f logs c1 fb tb key) emptyRunOut).1.inserted_trades
      = 0 ∧
    (exceptD (run_indexer f logs c1 fb tb key) emptyRunOut).2.1.durable.trades
      = c1.durable.trades ∧
    get_sync_state
      (exceptD (run_indexer f logs c1 fb tb key) emptyRunOut).2.1.durable key
      = get_sync_state c1.durable key ∧
    (insert_trades cn [t]).1.pending.trades = cn.pending.trades ∧
    (insert_trades cn [t]).2 = 0 := by
  have hnoop1 : insert_trades cn [t] =
      (commit { cn with pending := cn.pending }, 0) ∨
      insert_trades cn [t] = (cn, 0) := by
    unfold insert_trades
    rw [if_neg (by simp)]
    rw [insertTradesLoop_noop [t] cn.pending.trades 0
      (fun u hu => by rwa [List.mem_singleton.mp hu])]
    exact Or.inl rfl
  have hrow1 : (insert_trades cn [t]).1.pending.trades =
      cn.pending.trades := by
    rcases hnoop1 with he | he
    · rw [he]
      rfl
    · rw [he]
  have hrow2 : (insert_trades cn [t]).2 = 0 := by
    rcases hnoop1 with he | he
    · rw [he]
    · rw [he]
  unfold run_indexer at h1
  cases hloop : indexerLoop f conn.pending logs with
  | error e =>
    rw [hloop] at h1
    cases h1
  | ok parsed =>
    rw [hloop] at h1
    simp only [bind, Except.bind, pure, Except.pure] at h1
    injection h1 with h1
    injection h1 with hr h1
    injection h1 with hc1 htr
    subst hc1
    -- the second run reads the same markets table, so it parses the same
    have hm : ((update_sync_state (insert_trades conn parsed.1).1 key tb).pending).markets
        = conn.pending.markets :=
      insert_trades_pending_markets conn parsed.1
    have hloop2 : indexerLoop f
        (update_sync_state (insert_trades conn parsed.1).1 key tb).pending logs
        = .ok parsed := by
      rw [indexerLoop_markets f hm logs, hloop]
    -- every parsed trade's key is already stored after the first run
    have hkeys : ∀ u ∈ parsed.1,
        hasTradeKey
          ((update_sync_state (insert_trades conn parsed.1).1 key tb).pending).trades
          u = true := by
      intro u hu
      show hasTradeKey (insert_trades conn parsed.1).1.pending.trades u = true
      unfold insert_trades
      rw [if_neg (by
        intro he
        rw [List.isEmpty_iff.mp he] at hu
        exact absurd hu (List.not_mem_nil u))]
      exact insertTradesLoop_covers parsed.1 conn.pending.trades 0 u hu
    have hins2 : insert_trades
        (update_sync_state (insert_trades conn parsed.1).1 key tb) parsed.1 =
        (update_sync_state (insert_trades conn parsed.1).1 key tb, 0) :=
      insert_trades_noop _ parsed.1 rfl hkeys
    have hins2fst : (insert_trades
        (update_sync_state (insert_trades conn parsed.1).1 key tb) parsed.1).1 =
        update_sync_state (insert_trades conn parsed.1).1 key tb := by
      rw [hins2]
    have hins2snd : (insert_trades
        (update_sync_state (insert_trades conn parsed.1).1 key tb) parsed.1).2
        = 0 := by
      rw [hins2]
    refine ⟨?_, ?_, ?_, ?_, hrow1, hrow2⟩
    · unfold run_indexer
      rw [hloop2]
      rfl
    · unfold run_indexer
      rw [hloop2]
      show (insert_trades
        (update_sync_state (insert_trades conn parsed.1).1 key tb) parsed.1).2
        = 0
      exact hins2snd
    · unfold run_indexer
      rw [hloop2]
      show (update_sync_state (insert_trades
          (update_sync_state (insert_trades conn parsed.1).1 key tb) parsed.1).1
          key tb).durable.trades
        = (update_sync_state (insert_trades conn parsed.1).1 key tb).durable.trades
      rw [hins2fst]
      rfl
    · unfold run_indexer
      rw [hloop2]
      show get_sync_state (update_sync_state (insert_trades
          (update_sync_state (insert_trades conn parsed.1).1 key tb) parsed.1).1
          key tb).durable key
        = get_sync_state
          (update_sync_state (insert_trades conn parsed.1).1 key tb).durable key
      rw [hins2fst, update_sync_state_get, update_sync_state_get]

/-- C6 witness: the idempotence theorem applied to the concrete demo run
(one log, one market) and to re-inserting the one stored trade row. -/
theorem claim_C6_witness :
    exceptIsOk (run_indexer demoTs [demoLog]
      (exceptD demoRun emptyRunOut).2.1 100 100 demoKey) = true ∧
    (exceptD (run_indexer demoTs [demoLog]
        (exceptD demoRun emptyRunOut).2.1 100 100 demoKey)
      emptyRunOut).1.inserted_trades = 0 ∧
    (exceptD (run_indexer demoTs [demoLog]
        (exceptD demoRun emptyRunOut).2.1 100 100 demoKey)
      emptyRunOut).2.1.durable.trades =
      (exceptD demoRun emptyRunOut).2.1.durable.trades ∧
    get_sync_state (exceptD (run_indexer demoTs [demoLog]
        (exceptD demoRun emptyRunOut).2.1 100 100 demoKey)
      emptyRunOut).2.1.durable demoKey =
      get_sync_state (exceptD demoRun emptyRunOut).2.1.durable demoKey ∧
    (insert_trades (exceptD demoRun emptyRunOut).2.1
      [((exceptD demoRun emptyRunOut).2.1.pending.trades).headD
        defaultTradeRow]).1.pending.trades =
      (exceptD demoRun emptyRunOut).2.1.pending.trades ∧
    (insert_trades (exceptD demoRun emptyRunOut).2.1
      [((exceptD demoRun emptyRunOut).2.1.pending.trades).headD
        defaultTradeRow]).2 = 0 :=
  claim_C6_idempotent_reindex demoTs [demoLog] demoConn 100 100 demoKey
    (exceptD demoRun emptyRunOut).1 (exceptD demoRun emptyRunOut).2.1
    (exceptD demoRun emptyRunOut).2.2 (exceptD demoRun emptyRunOut).2.1
    (((exceptD demoRun emptyRunOut).2.1.pending.trades).headD defaultTradeRow)
    rfl (by decide)

/-- C7 (amended): resolving a token id against the market registry is an
exact, *case-sensitive* string match against either derived position of a
stored market — a market is returned only when one of its stored token ids
equals the query verbatim — and the lookup returns none exactly when no
stored market matches verbatim (in particular a stored id differing only
in letter case does not match, see the counterexample). -/
theorem claim_C7_exact_match (db db' : DbState) (tid : Str) (m : MarketRow)
    (h : fetch_market_by_token_id db tid = some m)
    (h' : ∀ m' ∈ db'.markets, m'.yes_token_id ≠ tid ∧ m'.no_token_id ≠ tid) :
    m ∈ db.markets ∧ (m.yes_token_id = tid ∨ m.no_token_id = tid) ∧
    fetch_market_by_token_id db' tid = none := by
  unfold fetch_market_by_token_id at h ⊢
  refine ⟨List.mem_of_find?_eq_some h, ?_, ?_⟩
  · have hp := List.find?_some h
    simp only [Bool.or_eq_true, beq_iff_eq] at hp
    exact hp
  · rw [List.find?_eq_none]
    intro m' hm'
    simp only [Bool.or_eq_true, beq_iff_eq, not_or]
    exact ⟨(h' m' hm').1, (h' m' hm').2⟩

/-- C7 witness: exact-match resolution at concrete states — the demo
market's YES token resolves to it, and a registry holding no verbatim
match (only a case-variant) resolves to none. -/
theorem claim_C7_witness :
    demoMarket ∈ demoDb.markets ∧
    (demoMarket.yes_token_id = strL "0x" ++ hexPad 1 64 ∨
      demoMarket.no_token_id = strL "0x" ++ hexPad 1 64) ∧
    fetch_market_by_token_id mixedCaseDb (strL "0x" ++ hexPad 1 64) = none :=
  claim_C7_exact_match demoDb mixedCaseDb (strL "0x" ++ hexPad 1 64)
    demoMarket (by decide) (by decide)

/-- C8 (amended): at the ingestion boundary, an integer token id and a
decimal-string token id are normalised to the fixed `0x`-prefixed
64-hex-digit lowercase zero-padded form, but an already-hex string is
stored verbatim — neither lowercased nor padded; the helper
`normalize_hex` lowercases and `0x`-prefixes but does not pad either. -/
theorem claim_C8_token_normalization (n : Nat) (s s' v : Str)
    (hs : isDigits s = true) (hs' : isDigits s' = false)
    (hv : starts0x v = true) :
    gammaTokenId (.int n) = strL "0x" ++ hexPad n 64 ∧
    gammaTokenId (.str s) = strL "0x" ++ hexPad (decToNat s) 64 ∧
    gammaTokenId (.str s') = s' ∧
    normalize_hex v = strL "0x" ++ lowerL (v.drop 2) := by
  refine ⟨rfl, by simp [gammaTokenId, hs], by simp [gammaTokenId, hs'], ?_⟩
  have hne : v.isEmpty = false := by
    match v with
    | [] => simp [starts0x] at hv
    | a :: t => rfl
  simp [normalize_hex, hne, hv]

/-- C8 witness: the normalisation behaviour at concrete ingested values. -/
theorem claim_C8_witness :
    gammaTokenId (.int 255) = strL "0x" ++ hexPad 255 64 ∧
    gammaTokenId (.str (strL "255")) =
      strL "0x" ++ hexPad (decToNat (strL "255")) 64 ∧
    gammaTokenId (.str (strL "0xAB")) = strL "0xAB" ∧
    normalize_hex (strL "0xAbC") = strL "0x" ++ lowerL ((strL "0xAbC").drop 2) :=
  claim_C8_token_normalization 255 (strL "255") (strL "0xAB") (strL "0xAbC")
    (by decide) (by decide) (by decide)

/-- C9: every trade record `parse_trade_from_log` hands to persistence has
outcome YES or NO — the UNKNOWN branch is unreachable, because the market
lookup only succeeds on a verbatim token-id match and the outcome test
lowercases both sides of that same pair. -/
theorem claim_C9_outcome_invariant (log : Log) (ts : Str) (db : DbState)
    (rec : TradeRow)
    (h : parse_trade_from_log log ts db = .ok (some rec)) :
    rec.outcome = strL "YES" ∨ rec.outcome = strL "NO" := by
  unfold parse_trade_from_log at h
  cases hd : decode_order_filled log with
  | error e =>
    rw [hd] at h
    cases h
  | ok trade =>
    rw [hd] at h
    simp only [bind, Except.bind] at h
    cases hf : fetch_market_by_token_id db trade.token_id with
    | none =>
      rw [hf] at h
      simp only [pure, Except.pure] at h
      cases h
    | some market =>
      rw [hf] at h
      simp only [pure, Except.pure] at h
      injection h with h
      injection h with h
      subst h
      unfold fetch_market_by_token_id at hf
      have hp := List.find?_some hf
      simp only [Bool.or_eq_true, beq_iff_eq] at hp
      show (if (lowerL trade.token_id == lowerL market.yes_token_id) = true
          then strL "YES"
          else if (lowerL trade.token_id == lowerL market.no_token_id) = true
          then strL "NO" else strL "UNKNOWN") = strL "YES" ∨
        (if (lowerL trade.token_id == lowerL market.yes_token_id) = true
          then strL "YES"
          else if (lowerL trade.token_id == lowerL market.no_token_id) = true
          then strL "NO" else strL "UNKNOWN") = strL "NO"
      rcases hp with hy | hn
      · rw [if_pos (by rw [hy]; exact beq_self_eq_true _)]
        exact Or.inl rfl
      · by_cases hb : (lowerL trade.token_id == lowerL market.yes_token_id) = true
        · rw [if_pos hb]
          exact Or.inl rfl
        · rw [if_neg hb, if_pos (by rw [hn]; exact beq_self_eq_true _)]
          exact Or.inr rfl

/-- C9 witness: the outcome invariant at the concrete demo log and
registry. -/
theorem claim_C9_witness :
    ((exceptD (parse_trade_from_log demoLog (demoTs 100) demoDb)
      none).getD defaultTradeRow).outcome = strL "YES" ∨
    ((exceptD (parse_trade_from_log demoLog (demoTs 100) demoDb)
      none).getD defaultTradeRow).outcome = strL "NO" :=
  claim_C9_outcome_invariant demoLog (demoTs 100) demoDb
    ((exceptD (parse_trade_from_log demoLog (demoTs 100) demoDb)
      none).getD defaultTradeRow) rfl

end OGBC
